import Mathlib

/-!
Verification development for the competitor-analysis pipeline
(`src/backend/services/gemini_service.py`, `src/desktop/gemini_client.py`,
`src/desktop/parser.py`, `src/backend/config.py`).

Strings are embedded as `List Char`.  the Python `json.loads` is embedded as a
fuel-driven recursive-descent parser over the JSON grammar that Cthe Python
decoder accepts in strict mode (including the `NaN` / `Infinity` /
`-Infinity` constants).  Integer number tokens become `JVal.num`; any other
number token is kept as its lexeme in `JVal.flt`, so no floating-point
semantics is needed.  One embedding restriction: an escaped lone surrogate
(`\uD800` unpaired), which CPython keeps as a lone-surrogate `str`, has no
`Char` counterpart in Lean and is treated as a parse failure; no claim
touches that corner.  Resource exhaustion (Python recursion limits) is
outside the model.
-/

/-- JSON values as produced by `json.loads`: objects are insertion-ordered
key/value lists with last-wins duplicate handling, exactly like a Python
`dict` built by repeated assignment. -/
inductive JVal where
  | null
  | bool (b : Bool)
  | num (n : Int)
  | flt (lex : List Char)
  | str (s : List Char)
  | arr (xs : List JVal)
  | obj (kvs : List (List Char × JVal))

/-- JSON whitespace, the only characters `json.loads` skips between tokens. -/
def jws (c : Char) : Bool :=
  c = ' ' || c = '\t' || c = '\n' || c = '\r'

/-- Value of one hex digit, for `\uXXXX` escapes. -/
def hexVal (c : Char) : Option Nat :=
  if '0' ≤ c ∧ c ≤ '9' then some (c.toNat - 48)
  else if 'a' ≤ c ∧ c ≤ 'f' then some (c.toNat - 87)
  else if 'A' ≤ c ∧ c ≤ 'F' then some (c.toNat - 55)
  else none

/-- Four hex digits to a code unit. -/
def hex4 (h1 h2 h3 h4 : Char) : Option Nat :=
  match hexVal h1, hexVal h2, hexVal h3, hexVal h4 with
  | some a, some b, some c, some d => some (((a * 16 + b) * 16 + c) * 16 + d)
  | _, _, _, _ => none

/-- Decode one backslash escape.  Surrogate pairs are combined as CPython
does; a lone surrogate is refused (see the module comment). -/
def decodeEscape (e : Char) (r1 : List Char) : Option (Char × List Char) :=
  match e with
  | '\"' => some ('\"', r1)
  | '\\' => some ('\\', r1)
  | '/' => some ('/', r1)
  | 'b' => some ('\x08', r1)
  | 'f' => some ('\x0c', r1)
  | 'n' => some ('\n', r1)
  | 'r' => some ('\r', r1)
  | 't' => some ('\t', r1)
  | 'u' =>
    match r1 with
    | h1 :: h2 :: h3 :: h4 :: r2 =>
      match hex4 h1 h2 h3 h4 with
      | none => none
      | some n =>
        if 0xD800 ≤ n ∧ n ≤ 0xDBFF then
          match r2 with
          | '\\' :: 'u' :: g1 :: g2 :: g3 :: g4 :: r3 =>
            match hex4 g1 g2 g3 g4 with
            | some m2 =>
              if 0xDC00 ≤ m2 ∧ m2 ≤ 0xDFFF then
                some (Char.ofNat (0x10000 + (n - 0xD800) * 0x400 + (m2 - 0xDC00)), r3)
              else none
            | none => none
          | _ => none
        else if 0xDC00 ≤ n ∧ n ≤ 0xDFFF then none
        else some (Char.ofNat n, r2)
    | _ => none
  | _ => none

/-- Body of a JSON string after the opening quote: returns the decoded
characters and the rest of the input after the closing quote.  Unescaped
control characters are refused, as in strict `json.loads`. -/
def parseStringBody (fuel : Nat) (l : List Char) : Option (List Char × List Char) :=
  match fuel with
  | 0 => none
  | Nat.succ fu =>
    match l with
    | [] => none
    | '\"' :: r => some ([], r)
    | '\\' :: r =>
      match r with
      | [] => none
      | e :: r1 =>
        match decodeEscape e r1 with
        | none => none
        | some (c, r2) =>
          match parseStringBody fu r2 with
          | none => none
          | some (s, r3) => some (c :: s, r3)
    | c :: r =>
      if c.toNat < 0x20 then none
      else
        match parseStringBody fu r with
        | none => none
        | some (s, r2) => some (c :: s, r2)

/-- Digits to their decimal value. -/
def digitsToNat (l : List Char) : Nat :=
  l.foldl (fun a c => a * 10 + (c.toNat - 48)) 0

/-- Number token, per the JSON grammar `-?(0|[1-9]\d*)(\.\d+)?([eE][+-]?\d+)?`
used by Cthe Python decoder.  An integral token becomes `JVal.num` (a Python
`int`); a token with a fraction or exponent keeps its lexeme in `JVal.flt`
(a Python `float`). -/
def parseNumber (l : List Char) : Option (JVal × List Char) :=
  let (neg, l1) : Bool × List Char :=
    match l with
    | '-' :: r => (true, r)
    | _ => (false, l)
  let intDigs := l1.takeWhile (fun c => c.isDigit)
  let r1 := l1.dropWhile (fun c => c.isDigit)
  if intDigs.isEmpty then none
  else if intDigs.length > 1 ∧ intDigs.head? = some '0' then none
  else
    let (fracDigs, r2) : List Char × List Char :=
      match r1 with
      | '.' :: rr =>
        let fd := rr.takeWhile (fun c => c.isDigit)
        if fd.isEmpty then ([], r1) else (fd, rr.dropWhile (fun c => c.isDigit))
      | _ => ([], r1)
    let (expChars, r3) : List Char × List Char :=
      match r2 with
      | c :: rr =>
        if c = 'e' ∨ c = 'E' then
          match rr with
          | s :: rr2 =>
            if s = '+' ∨ s = '-' then
              let ed := rr2.takeWhile (fun c => c.isDigit)
              if ed.isEmpty then ([], r2) else (c :: s :: ed, rr2.dropWhile (fun c => c.isDigit))
            else
              let ed := rr.takeWhile (fun c => c.isDigit)
              if ed.isEmpty then ([], r2) else (c :: ed, rr.dropWhile (fun c => c.isDigit))
          | [] => ([], r2)
        else ([], r2)
      | [] => ([], r2)
    if fracDigs.isEmpty ∧ expChars.isEmpty then
      let v : Int := Int.ofNat (digitsToNat intDigs)
      some (JVal.num (if neg then -v else v), r3)
    else
      let lex :=
        (if neg then ['-'] else []) ++ intDigs ++
          (if fracDigs.isEmpty then [] else '.' :: fracDigs) ++ expChars
      some (JVal.flt lex, r3)

/-- Python `dict` assignment `d[k] = v`: replace in place when the key is
present (keeping its original position), append otherwise. -/
def objInsert (kvs : List (List Char × JVal)) (k : List Char) (v : JVal) :
    List (List Char × JVal) :=
  if kvs.any (fun p => p.1 == k) then
    kvs.map (fun p => if p.1 == k then (k, v) else p)
  else kvs ++ [(k, v)]

/-- Continuation modes of the recursive descent.  The mutual recursion of
Cthe Python scanner is flattened into one fuel-indexed function so that it is
structural (and hence kernel-reducible) in Lean. -/
inductive PMode where
  | val
  | objBody
  | members (acc : List (List Char × JVal))
  | arrBody
  | elems (acc : List JVal)

/-- One strict-JSON scanner step; `PMode.val` scans a value at the current
position (whitespace already skipped, as in Cthe Python `scan_once`). -/
def parseStep (fuel : Nat) (m : PMode) (l : List Char) : Option (JVal × List Char) :=
  match fuel with
  | 0 => none
  | Nat.succ fu =>
    match m with
    | PMode.val =>
      match l with
      | 'n' :: 'u' :: 'l' :: 'l' :: r => some (JVal.null, r)
      | 't' :: 'r' :: 'u' :: 'e' :: r => some (JVal.bool true, r)
      | 'f' :: 'a' :: 'l' :: 's' :: 'e' :: r => some (JVal.bool false, r)
      | 'N' :: 'a' :: 'N' :: r => some (JVal.flt ('N' :: 'a' :: 'N' :: []), r)
      | 'I' :: 'n' :: 'f' :: 'i' :: 'n' :: 'i' :: 't' :: 'y' :: r =>
        some (JVal.flt ('I' :: 'n' :: 'f' :: 'i' :: 'n' :: 'i' :: 't' :: 'y' :: []), r)
      | '-' :: 'I' :: 'n' :: 'f' :: 'i' :: 'n' :: 'i' :: 't' :: 'y' :: r =>
        some (JVal.flt ('-' :: 'I' :: 'n' :: 'f' :: 'i' :: 'n' :: 'i' :: 't' :: 'y' :: []), r)
      | '\"' :: r =>
        match parseStringBody (r.length + 1) r with
        | some (s, r2) => some (JVal.str s, r2)
        | none => none
      | '{' :: r => parseStep fu PMode.objBody r
      | '[' :: r => parseStep fu PMode.arrBody r
      | _ => parseNumber l
    | PMode.objBody =>
      match l.dropWhile jws with
      | '}' :: r => some (JVal.obj [], r)
      | l2 => parseStep fu (PMode.members []) l2
    | PMode.members acc =>
      match l with
      | '\"' :: r =>
        match parseStringBody (r.length + 1) r with
        | none => none
        | some (k, r1) =>
          match r1.dropWhile jws with
          | ':' :: r2 =>
            match parseStep fu PMode.val (r2.dropWhile jws) with
            | none => none
            | some (v, r3) =>
              match r3.dropWhile jws with
              | ',' :: r4 => parseStep fu (PMode.members (objInsert acc k v)) (r4.dropWhile jws)
              | '}' :: r4 => some (JVal.obj (objInsert acc k v), r4)
              | _ => none
          | _ => none
      | _ => none
    | PMode.arrBody =>
      match l.dropWhile jws with
      | ']' :: r => some (JVal.arr [], r)
      | l2 => parseStep fu (PMode.elems []) l2
    | PMode.elems acc =>
      match parseStep fu PMode.val l with
      | none => none
      | some (v, r) =>
        match r.dropWhile jws with
        | ',' :: r2 => parseStep fu (PMode.elems (acc ++ [v])) (r2.dropWhile jws)
        | ']' :: r2 => some (JVal.arr (acc ++ [v]), r2)
        | _ => none

/-- Embedding of strict `json.loads`: skip leading whitespace, scan one
value, accept only when nothing but whitespace remains.  The fuel bound
`4 * length + 4` exceeds the at most three scanner steps any input
character can be charged for, so it never cuts off a parse. -/
def jsonLoads (l : List Char) : Option JVal :=
  match parseStep (4 * l.length + 4) PMode.val (l.dropWhile jws) with
  | none => none
  | some (v, rest) => if rest.dropWhile jws = [] then some v else none

/-!
The response extractor, `GeminiClient._parse_json` (src/desktop/gemini_client.py)
and the character-identical `GeminiService._parse_json_response`
(src/backend/services/gemini_service.py):

    json_match = re.search("```(?:json)?\s*([\s\S]*?)\s*```", content)
    if json_match: content = json_match.group(1)
    json_match = re.search("\{[\s\S]*\}", content)
    if json_match: content = json_match.group(0)
    try: return json.loads(content)
    except ...: return {}

The two `re.search` calls are embedded by their leftmost-match semantics:

* the fence regex matches starting at the first "```" occurrence that has
  another "```" occurrence after its end; the greedy `(?:json)?` and `\s*`
  never need to backtrack (neither letters nor whitespace can contain a
  backtick), and the lazy group plus trailing greedy `\s*` capture up to
  the next "```" with trailing whitespace stripped;
* the brace regex matches from the first `{` to the last `}` after it.

The desktop copy catches every exception, the backend copy catches
`json.JSONDecodeError`; over string inputs both yield the same function.
-/

/-- Boolean prefix test on character lists. -/
def isPre : List Char → List Char → Bool
  | [], _ => true
  | _ :: _, [] => false
  | a :: as, b :: bs => if a = b then isPre as bs else false

/-- Index of the leftmost occurrence of (nonempty) `pat`, as found by a
left-to-right regex scan. -/
def findPat (pat : List Char) : List Char → Option Nat
  | [] => none
  | c :: rest =>
    if isPre pat (c :: rest) then some 0
    else (findPat pat rest).map (fun i => i + 1)

/-- The `\s` class of Python `re` on ASCII text. -/
def pyWS (c : Char) : Bool :=
  c = ' ' || c = '\t' || c = '\n' || c = '\r' || c = '\x0b' || c = '\x0c'

/-- Strip trailing `\s` characters. -/
def dropTrailingWS (l : List Char) : List Char :=
  (l.reverse.dropWhile pyWS).reverse

/-- The triple-backtick fence delimiter. -/
def bbb : List Char := '\x60' :: '\x60' :: '\x60' :: []

/-- The optional fence tag. -/
def jsonTag : List Char := 'j' :: 's' :: 'o' :: 'n' :: []

/-- A canonical `json`-tagged fence opener, `"\x60\x60\x60json\n"`. -/
def fenceOpen : List Char :=
  '\x60' :: '\x60' :: '\x60' :: 'j' :: 's' :: 'o' :: 'n' :: '\n' :: []

/-- A canonical fence closer, `"\n\x60\x60\x60"`. -/
def fenceClose : List Char := '\n' :: '\x60' :: '\x60' :: '\x60' :: []

/-- Group 1 of the leftmost match of `` ```(?:json)?\s*([\s\S]*?)\s*``` ``,
or `none` when the regex does not match. -/
def fenceInterior (l : List Char) : Option (List Char) :=
  match findPat bbb l with
  | none => none
  | some i =>
    let r := l.drop (i + 3)
    let r1 := if isPre jsonTag r then r.drop 4 else r
    let r2 := r1.dropWhile pyWS
    match findPat bbb r2 with
    | none => none
    | some t => some (dropTrailingWS (r2.take t))

/-- Rightmost index where `p` holds. -/
def lastIdx (p : Char → Bool) : List Char → Option Nat
  | [] => none
  | c :: rest =>
    match lastIdx p rest with
    | some j => some (j + 1)
    | none => if p c then some 0 else none

/-- The leftmost (hence greedy-widest) match of `\{[\s\S]*\}`: from the
first `{` through the last `}` after it, or `none` when absent. -/
def braceSpan (l : List Char) : Option (List Char) :=
  match findPat ('{' :: []) l with
  | none => none
  | some i =>
    let r := l.drop i
    match lastIdx (fun c => c = '}') (r.drop 1) with
    | none => none
    | some j => some (r.take (j + 2))

/-- The text handed to the final strict `json.loads` after the two regex
rewriting stages. -/
def workingText (raw : List Char) : List Char :=
  let c1 := (fenceInterior raw).getD raw
  (braceSpan c1).getD c1

/-- The whole extractor: fence stage, brace stage, strict parse, empty dict
on failure. -/
def parse_json (raw : List Char) : JVal :=
  let c1 := (fenceInterior raw).getD raw
  let c2 := (braceSpan c1).getD c1
  (jsonLoads c2).getD (JVal.obj [])

/-! Result schemas and normalization. -/

/-- An extracted mapping, the Python `dict` returned by the extractor. -/
abbrev JDict := List (List Char × JVal)

/-- Python `dict.get` with no default: first (unique) binding of the key. -/
def dictGet : JDict → List Char → Option JVal
  | [], _ => none
  | (k, v) :: rest, key => if k = key then some v else dictGet rest key

/-- A JSON array all of whose elements are strings, as a string list. -/
def strListOf : JVal → Option (List (List Char))
  | JVal.arr xs => allStrs xs
  | _ => none
where
  allStrs : List JVal → Option (List (List Char))
    | [] => some []
    | JVal.str s :: t => (allStrs t).map (fun u => s :: u)
    | _ => none

/-- Characters of a JSON string. -/
def jStrOf : JVal → Option (List Char)
  | JVal.str s => some s
  | _ => none

/-- Modelled from the spec: the pydantic validation layer of
`backend/models/schemas.py` is not under `src/`; per §4.5 of the spec a
missing or wrong-typed field never raises and falls back to the per-field
default.  The missing-key default is the source `data.get(key, [])`. -/
def getList (d : JDict) (k : List Char) : List (List Char) :=
  match dictGet d k with
  | some v => (strListOf v).getD []
  | none => []

/-- Modelled from the spec: string-field analogue of `getList` (missing-key
default from the source `data.get(key, "")`, wrong-typed fallback from
§4.5 of the spec, `backend/models/schemas.py` being absent). -/
def getStr (d : JDict) (k : List Char) : List Char :=
  match dictGet d k with
  | some v => (jStrOf v).getD []
  | none => []

/-- Modelled from the spec: integer-field analogue (missing-key default 5
from the source `data.get("visual_style_score", 5)`; a non-integer falls
back per §4.5 of the spec; §4.5 also states there is no range clamping, so
an integer passes through verbatim). -/
def getScore (d : JDict) (k : List Char) (dflt : Int) : Int :=
  match dictGet d k with
  | some (JVal.num n) => n
  | some _ => dflt
  | none => dflt

/-- Modelled from the spec: the `CompetitorAnalysis` schema of
`backend/models/schemas.py` (not under `src/`), §3 of the spec. -/
structure CompetitorAnalysis where
  strengths : List (List Char)
  weaknesses : List (List Char)
  unique_offers : List (List Char)
  recommendations : List (List Char)
  summary : List Char
deriving DecidableEq

/-- Modelled from the spec: the `ImageAnalysis` schema of
`backend/models/schemas.py` (not under `src/`), §3 of the spec. -/
structure ImageAnalysis where
  description : List Char
  marketing_insights : List (List Char)
  visual_style_score : Int
  visual_style_analysis : List Char
  recommendations : List (List Char)
deriving DecidableEq

def kStrengths : List Char := ("strengths").data
def kWeaknesses : List Char := ("weaknesses").data
def kUniqueOffers : List Char := ("unique_offers").data
def kRecommendations : List Char := ("recommendations").data
def kSummary : List Char := ("summary").data
def kDescription : List Char := ("description").data
def kMarketingInsights : List Char := ("marketing_insights").data
def kVisualStyleScore : List Char := ("visual_style_score").data
def kVisualStyleAnalysis : List Char := ("visual_style_analysis").data
def kTargetAudience : List Char := ("target_audience").data
def kColorPalette : List Char := ("color_palette").data
def kEmotionalTone : List Char := ("emotional_tone").data

/-- The `CompetitorAnalysis(strengths=data.get("strengths", []), ...)`
construction of `GeminiService.analyze_text` (gemini_service.py lines
142-148). -/
def CompetitorAnalysis.ofData (d : JDict) : CompetitorAnalysis :=
  { strengths := getList d kStrengths
    weaknesses := getList d kWeaknesses
    unique_offers := getList d kUniqueOffers
    recommendations := getList d kRecommendations
    summary := getStr d kSummary }

/-- The `ImageAnalysis(description=data.get("description", ""), ...)`
construction of `GeminiService.analyze_image` (gemini_service.py lines
220-226). -/
def ImageAnalysis.ofData (d : JDict) : ImageAnalysis :=
  { description := getStr d kDescription
    marketing_insights := getList d kMarketingInsights
    visual_style_score := getScore d kVisualStyleScore 5
    visual_style_analysis := getStr d kVisualStyleAnalysis
    recommendations := getList d kRecommendations }

/-! The model endpoint and the two invokers.  A provider call is embedded
as a function from the prompt text to either a raised transport/provider
exception (`Except.error` with its message) or a raw response; the image
payload sent alongside the vision prompts carries no information the
claims touch and is omitted from the call argument. -/

/-- The provider reply: free text plus optional token-usage counters. -/
structure RawResponse where
  text : List Char
  usage : Option (Nat × Nat)

/-- An endpoint: one synchronous `generate_content` call. -/
abbrev Endpoint := List Char → Except (List Char) RawResponse

/-- Prompt of `GeminiService.analyze_text` (gemini_service.py lines
93-111): the fixed Russian instruction block followed by the analysed
text. -/
def serviceTextPrompt (text : List Char) : List Char :=
  ("Ты — эксперт по конкурентному анализу. Проанализируй предоставленный текст конкурента и верни структурированный JSON-ответ.\n\nФормат ответа (строго JSON):\n\x7b\n  \"strengths\": [\"сильная сторона 1\", \"сильная сторона 2\", ...],\n  \"weaknesses\": [\"слабая сторона 1\", \"слабая сторона 2\", ...],\n  \"unique_offers\": [\"уникальное предложение 1\", \"уникальное предложение 2\", ...],\n  \"recommendations\": [\"рекомендация 1\", \"рекомендация 2\", ...],\n  \"summary\": \"Краткое резюме анализа\"\n\x7d\n\nВажно:\n- Каждый массив должен содержать 3-5 пунктов\n- Пиши на русском языке\n- Будь конкретен и практичен в рекомендациях\n\nПроанализируй текст конкурента:\n\n").data ++ text

/-- Prompt of `GeminiService.analyze_image` (gemini_service.py lines
172-189), a fixed string. -/
def serviceImagePrompt : List Char :=
  ("Ты — эксперт по визуальному маркетингу и дизайну. Проанализируй изображение конкурента (баннер, сайт, упаковка товара и т.д.) и верни структурированный JSON-ответ.\n\nФормат ответа (строго JSON):\n\x7b\n  \"description\": \"Детальное описание того, что изображено\",\n  \"marketing_insights\": [\"инсайт 1\", \"инсайт 2\", ...],\n  \"visual_style_score\": 7,\n  \"visual_style_analysis\": \"Анализ визуального стиля конкурента\",\n  \"recommendations\": [\"рекомендация 1\", \"рекомендация 2\", ...]\n\x7d\n\nВажно:\n- visual_style_score от 0 до 10\n- Каждый массив должен содержать 3-5 пунктов\n- Пиши на русском языке\n- Оценивай: цветовую палитру, типографику, композицию, UX/UI элементы\n\nПроанализируй это изображение конкурента с точки зрения маркетинга и дизайна.").data

/-- The raised-exception message when `.get` is called on a non-dict JSON
value (Python raises `AttributeError` inside the `try`, which the backend
logs and re-raises); the exception text itself is abstracted to its class
name. -/
def attributeErrorMsg : List Char := ("AttributeError").data

/-- `GeminiService.analyze_text` (gemini_service.py lines 85-158): build
the prompt, invoke the endpoint, extract, normalize; every exception from
the call is logged with elapsed time and re-raised by the bare `raise`. -/
def GeminiService.analyze_text (text : List Char) (call : Endpoint) :
    Except (List Char) CompetitorAnalysis :=
  match call (serviceTextPrompt text) with
  | Except.error e => Except.error e
  | Except.ok resp =>
    match parse_json resp.text with
    | JVal.obj kvs => Except.ok (CompetitorAnalysis.ofData kvs)
    | _ => Except.error attributeErrorMsg

/-- `GeminiService.analyze_image` (gemini_service.py lines 160-237), the
same shape against the vision model. -/
def GeminiService.analyze_image (call : Endpoint) :
    Except (List Char) ImageAnalysis :=
  match call serviceImagePrompt with
  | Except.error e => Except.error e
  | Except.ok resp =>
    match parse_json resp.text with
    | JVal.obj kvs => Except.ok (ImageAnalysis.ofData kvs)
    | _ => Except.error attributeErrorMsg

/-! The desktop client (src/desktop/gemini_client.py).  Its analysis
methods wrap their whole body in `try/except Exception` and return
`{"success": False, "error": str(e)}` instead of re-raising; the built
analysis dict passes values through verbatim with `.get` defaults and no
type validation. -/

/-- The analysis dict built by `GeminiClient.analyze_text` (lines 46-57):
raw values with `.get` defaults, no validation. -/
structure ClientTextAnalysis where
  strengths : JVal
  weaknesses : JVal
  unique_offers : JVal
  target_audience : JVal
  marketing_insights : JVal
  recommendations : JVal
  summary : JVal

/-- A desktop client return value: `{"success": True, "analysis": ...}` or
`{"success": False, "error": ...}`. -/
inductive ClientResult where
  | success (analysis : ClientTextAnalysis)
  | failure (error : List Char)

/-- Prompt of `GeminiClient.analyze_text` (gemini_client.py lines 22-40):
template concatenated with the analysed text. -/
def clientTextPrompt (text : List Char) : List Char :=
  ("Ты — эксперт по конкурентному анализу и маркетингу. \nПроанализируй текст конкурента и верни структурированный JSON:\n\n\x7b\n  \"strengths\": [\"сильная сторона 1\", \"сильная сторона 2\", ...],\n  \"weaknesses\": [\"слабая сторона 1\", \"слабая сторона 2\", ...],\n  \"unique_offers\": [\"уникальное предложение 1\", ...],\n  \"target_audience\": [\"ЦА 1\", \"ЦА 2\", ...],\n  \"marketing_insights\": [\"инсайт 1\", \"инсайт 2\", ...],\n  \"recommendations\": [\"рекомендация 1\", \"рекомендация 2\", ...],\n  \"summary\": \"краткая суммарная оценка\"\n\x7d\n\nТекст для анализа:\n").data ++ text

/-- The dict assembly of `GeminiClient.analyze_text` lines 48-56. -/
def ClientTextAnalysis.ofData (d : JDict) : ClientTextAnalysis :=
  { strengths := (dictGet d kStrengths).getD (JVal.arr [])
    weaknesses := (dictGet d kWeaknesses).getD (JVal.arr [])
    unique_offers := (dictGet d kUniqueOffers).getD (JVal.arr [])
    target_audience := (dictGet d kTargetAudience).getD (JVal.arr [])
    marketing_insights := (dictGet d kMarketingInsights).getD (JVal.arr [])
    recommendations := (dictGet d kRecommendations).getD (JVal.arr [])
    summary := (dictGet d kSummary).getD (JVal.str []) }

/-- `GeminiClient.analyze_text` (gemini_client.py lines 19-59): the whole
body sits in `try/except Exception as e: return {"success": False,
"error": str(e)}`, so the function itself never lets an exception escape
— hence the unconditional `Except.ok`. -/
def GeminiClient.analyze_text (text : List Char) (call : Endpoint) :
    Except (List Char) ClientResult :=
  Except.ok
    (match call (clientTextPrompt text) with
     | Except.error e => ClientResult.failure e
     | Except.ok resp =>
       match parse_json resp.text with
       | JVal.obj kvs => ClientResult.success (ClientTextAnalysis.ofData kvs)
       | _ => ClientResult.failure attributeErrorMsg)

/-! Cost estimation (`GeminiService._calculate_cost`, gemini_service.py
lines 65-83) and the configuration it reads (`backend/config.py`).
the Python binary floats are idealized as exact rationals; `round(x, 6)` is
round-half-to-even at six decimal places. -/

/-- The configuration fields of `Settings` (backend/config.py) that the
service reads.  Note there are no rate fields: the rates are hardcoded in
`_calculate_cost`. -/
structure Settings where
  gemini_api_key : List Char
  gemini_text_model : List Char
  gemini_vision_model : List Char

/-- The module-level `settings = Settings()` instance with its defaults. -/
def settings : Settings :=
  { gemini_api_key := []
    gemini_text_model := ("gemini-2.0-flash-exp").data
    gemini_vision_model := ("gemini-2.0-flash-exp").data }

/-- Hardcoded constant `INPUT_TEXT_COST = 0.0000001` ($0.10 per 1M tokens),
local to `_calculate_cost`. -/
def INPUT_TEXT_COST : ℚ := 1 / 10000000

/-- Hardcoded constant `OUTPUT_TEXT_COST = 0.0000004` ($0.40 per 1M
tokens), local to `_calculate_cost`. -/
def OUTPUT_TEXT_COST : ℚ := 4 / 10000000

/-- Round-half-to-even, the Python rounding mode, to the nearest integer. -/
def roundHalfEven (q : ℚ) : ℤ :=
  let f := ⌊q⌋
  let r := q - f
  if r < 1 / 2 then f
  else if 1 / 2 < r then f + 1
  else if f % 2 = 0 then f else f + 1

/-- `round(x, 6)` over exact rationals. -/
def pyRound6 (q : ℚ) : ℚ :=
  (roundHalfEven (q * 1000000) : ℚ) / 1000000

/-- The cost dict returned by `_calculate_cost`. -/
structure CostInfo where
  input_tokens : Nat
  output_tokens : Nat
  total_tokens : Nat
  input_cost_usd : ℚ
  output_cost_usd : ℚ
  total_cost_usd : ℚ
  model : List Char

/-- `GeminiService._calculate_cost(input_tokens, output_tokens, has_image)`:
one hardcoded rate pair for both flags; `has_image` only selects which
configured model name is reported. -/
def GeminiService.calculate_cost (s : Settings) (input_tokens output_tokens : Nat)
    (has_image : Bool) : CostInfo :=
  let input_cost : ℚ := input_tokens * INPUT_TEXT_COST
  let output_cost : ℚ := output_tokens * OUTPUT_TEXT_COST
  let total_cost : ℚ := input_cost + output_cost
  { input_tokens := input_tokens
    output_tokens := output_tokens
    total_tokens := input_tokens + output_tokens
    input_cost_usd := pyRound6 input_cost
    output_cost_usd := pyRound6 output_cost
    total_cost_usd := pyRound6 total_cost
    model := if has_image then s.gemini_vision_model else s.gemini_text_model }

/-! `GeminiService.analyze_parsed_content` (gemini_service.py lines
239-267): labelled present fields joined by blank lines; an all-blank
combination short-circuits to a default analysis without a model call. -/

/-- Python truthiness of an `Optional[str]`. -/
def truthyOpt : Option (List Char) → Bool
  | none => false
  | some s => !s.isEmpty

/-- The label prefixes of `content_parts`. -/
def labelTitle : List Char := ("Заголовок страницы (title): ").data

def labelH1 : List Char := ("Главный заголовок (H1): ").data

def labelParagraph : List Char := ("Первый абзац: ").data

/-- Contribution of a truthy field to `content_parts`: its labelled text,
nothing when the field is `None` or empty. -/
def fieldPart (label : List Char) (field : Option (List Char)) : List (List Char) :=
  match field with
  | some t => if t.isEmpty then [] else [label ++ t]
  | none => []

/-- `content_parts`: one labelled entry per truthy field, in source order. -/
def contentParts (title h1 paragraph : Option (List Char)) : List (List Char) :=
  fieldPart labelTitle title ++ fieldPart labelH1 h1 ++ fieldPart labelParagraph paragraph

/-- `"\n\n".join(parts)`. -/
def joinParts : List (List Char) → List Char
  | [] => []
  | [x] => x
  | x :: xs => x ++ '\n' :: '\n' :: joinParts xs

/-- Python `str.strip()` on ASCII whitespace. -/
def pyStrip (l : List Char) : List Char :=
  dropTrailingWS (l.dropWhile pyWS)

/-- The short-circuit result
`CompetitorAnalysis(summary="Не удалось извлечь контент для анализа")`:
every list field takes its schema default. -/
def emptyContentAnalysis : CompetitorAnalysis :=
  { strengths := []
    weaknesses := []
    unique_offers := []
    recommendations := []
    summary := ("Не удалось извлечь контент для анализа").data }

/-- `GeminiService.analyze_parsed_content(title, h1, paragraph)`; the
second component records whether the model endpoint was invoked. -/
def GeminiService.analyze_parsed_content (title h1 paragraph : Option (List Char))
    (call : Endpoint) : Except (List Char) CompetitorAnalysis × Bool :=
  let combined := joinParts (contentParts title h1 paragraph)
  if pyStrip combined = [] then (Except.ok emptyContentAnalysis, false)
  else (GeminiService.analyze_text combined call, true)

/-! The Selenium web parser (`WebParser.parse_url`, src/desktop/parser.py).
The effects of the browser session are the environment: each field records what
the corresponding driver call would do.  The Python `hash(url)`-derived
screenshot file name (process-randomized) is modelled by an injective
placeholder on the normalized url. -/

/-- Outcome of `driver.get(url)`. -/
inductive NavOutcome where
  | ok
  | timeout
  | err (msg : List Char)
deriving DecidableEq

/-- Browser behaviour of one run. -/
structure BrowserEnv where
  createErr : Option (List Char)
  navOutcome : NavOutcome
  bodyWaitOk : Bool
  pageTitle : List Char
  h1Text : Option (List Char)
  screenshotErr : Option (List Char)

/-- The returned dict: `{"success": True, "title", "h1", "screenshot",
"url"}` or `{"success": False, "error"}`. -/
inductive ParseResult where
  | ok (title h1 screenshot url : List Char)
  | fail (error : List Char)
deriving DecidableEq

/-- A run of `parse_url` together with whether `driver.quit()` ran in the
`finally` block. -/
structure ParseRun where
  result : ParseResult
  quitCalled : Bool

/-- Message of the `except TimeoutException` branch. -/
def timeoutMsg : List Char := ("Превышено время ожидания загрузки страницы").data

/-- Default title `"Без заголовка"` (`driver.title or ...`). -/
def noTitleMsg : List Char := ("Без заголовка").data

/-- Sentinel `"H1 не найден"` for the `NoSuchElementException` branch. -/
def noH1Msg : List Char := ("H1 не найден").data

/-- Scheme prefixing: `if not url.startswith(('http://', 'https://')):
url = 'https://' + url`. -/
def normalizeUrl (url : List Char) : List Char :=
  if isPre (("http://").data) url || isPre (("https://").data) url then url
  else ("https://").data ++ url

/-- Placeholder for `os.path.join(tempfile.gettempdir(),
f"screenshot_\x7bhash(url)\x7d.png")`. -/
def screenshotName (url : List Char) : List Char :=
  ("screenshot_").data ++ url ++ (".png").data

/-- `WebParser.parse_url` (parser.py lines 33-89): everything inside
`try`, `TimeoutException` (from `get` or the body wait) and any other
exception caught and returned as a failure dict, `finally: if driver:
driver.quit()`. -/
def WebParser.parse_url (url : List Char) (env : BrowserEnv) : ParseRun :=
  match env.createErr with
  | some e => { result := ParseResult.fail e, quitCalled := false }
  | none =>
    match env.navOutcome with
    | NavOutcome.timeout => { result := ParseResult.fail timeoutMsg, quitCalled := true }
    | NavOutcome.err m => { result := ParseResult.fail m, quitCalled := true }
    | NavOutcome.ok =>
      if !env.bodyWaitOk then { result := ParseResult.fail timeoutMsg, quitCalled := true }
      else
        let title := if env.pageTitle.isEmpty then noTitleMsg else env.pageTitle
        let h1 :=
          match env.h1Text with
          | some t => t
          | none => noH1Msg
        match env.screenshotErr with
        | some e => { result := ParseResult.fail e, quitCalled := true }
        | none =>
          { result :=
              ParseResult.ok title h1 (screenshotName (normalizeUrl url)) (normalizeUrl url)
            quitCalled := true }

/-! Smoke tests: the embedded pipeline on the scenarios of spec §8. -/

example : jsonLoads (("\x7b\"a\": 1\x7d").data) = some (JVal.obj [('a' :: [], JVal.num 1)]) := rfl

example :
    parse_json (("Sure!\n\x60\x60\x60json\n\x7b\"a\": 1\x7d\n\x60\x60\x60 thanks").data) =
      JVal.obj [('a' :: [], JVal.num 1)] := rfl

example : parse_json (("Sorry, I cannot help with that.").data) = JVal.obj [] := rfl

example :
    parse_json (("The score is \x7b\"s\": 10\x7d overall.").data) =
      JVal.obj [('s' :: [], JVal.num 10)] := rfl

/-! Helper lemmas about the field getters. -/

theorem getList_of_missing (d : JDict) (k : List Char) (h : dictGet d k = none) :
    getList d k = [] := by
  simp [getList, h]

theorem getList_of_wrong_typed (d : JDict) (k : List Char) (v : JVal)
    (h : dictGet d k = some v) (hv : strListOf v = none) : getList d k = [] := by
  simp [getList, h, hv]

theorem getStr_of_missing (d : JDict) (k : List Char) (h : dictGet d k = none) :
    getStr d k = [] := by
  simp [getStr, h]

theorem getStr_of_wrong_typed (d : JDict) (k : List Char) (v : JVal)
    (h : dictGet d k = some v) (hv : jStrOf v = none) : getStr d k = [] := by
  simp [getStr, h, hv]

theorem getScore_of_missing (d : JDict) (k : List Char) (dflt : Int)
    (h : dictGet d k = none) : getScore d k dflt = dflt := by
  simp [getScore, h]

theorem getScore_of_wrong_typed (d : JDict) (k : List Char) (dflt : Int) (v : JVal)
    (h : dictGet d k = some v) (hv : ∀ n : Int, v ≠ JVal.num n) :
    getScore d k dflt = dflt := by
  cases v with
  | num n => exact absurd rfl (hv n)
  | null => simp [getScore, h]
  | bool b => simp [getScore, h]
  | flt lex => simp [getScore, h]
  | str s => simp [getScore, h]
  | arr xs => simp [getScore, h]
  | obj kvs => simp [getScore, h]

/-- C3: normalization is total — both `ofData` constructions are total Lean
functions — and every field that is missing from the extracted mapping, or
present with a wrong-typed value, falls back to its explicit per-field
default: the empty list for the four list fields of `CompetitorAnalysis`
and the two of `ImageAnalysis`, the empty string for `summary`,
`description` and `visual_style_analysis`, and 5 for
`visual_style_score`. -/
theorem C3_normalize_total_defaults (d : JDict) :
    (dictGet d kStrengths = none → (CompetitorAnalysis.ofData d).strengths = []) ∧
    (∀ v, dictGet d kStrengths = some v → strListOf v = none →
      (CompetitorAnalysis.ofData d).strengths = []) ∧
    (dictGet d kWeaknesses = none → (CompetitorAnalysis.ofData d).weaknesses = []) ∧
    (dictGet d kUniqueOffers = none → (CompetitorAnalysis.ofData d).unique_offers = []) ∧
    (dictGet d kRecommendations = none → (CompetitorAnalysis.ofData d).recommendations = []) ∧
    (dictGet d kSummary = none → (CompetitorAnalysis.ofData d).summary = []) ∧
    (∀ v, dictGet d kSummary = some v → jStrOf v = none →
      (CompetitorAnalysis.ofData d).summary = []) ∧
    (dictGet d kDescription = none → (ImageAnalysis.ofData d).description = []) ∧
    (dictGet d kMarketingInsights = none → (ImageAnalysis.ofData d).marketing_insights = []) ∧
    (dictGet d kVisualStyleScore = none → (ImageAnalysis.ofData d).visual_style_score = 5) ∧
    (∀ v, dictGet d kVisualStyleScore = some v → (∀ n : Int, v ≠ JVal.num n) →
      (ImageAnalysis.ofData d).visual_style_score = 5) ∧
    (dictGet d kVisualStyleAnalysis = none →
      (ImageAnalysis.ofData d).visual_style_analysis = []) ∧
    (dictGet d kRecommendations = none → (ImageAnalysis.ofData d).recommendations = []) := by
  refine ⟨fun h => ?_, fun v h hv => ?_, fun h => ?_, fun h => ?_, fun h => ?_, fun h => ?_,
    fun v h hv => ?_, fun h => ?_, fun h => ?_, fun h => ?_, fun v h hv => ?_, fun h => ?_,
    fun h => ?_⟩
  · exact getList_of_missing d kStrengths h
  · exact getList_of_wrong_typed d kStrengths v h hv
  · exact getList_of_missing d kWeaknesses h
  · exact getList_of_missing d kUniqueOffers h
  · exact getList_of_missing d kRecommendations h
  · exact getStr_of_missing d kSummary h
  · exact getStr_of_wrong_typed d kSummary v h hv
  · exact getStr_of_missing d kDescription h
  · exact getList_of_missing d kMarketingInsights h
  · exact getScore_of_missing d kVisualStyleScore 5 h
  · exact getScore_of_wrong_typed d kVisualStyleScore 5 v h hv
  · exact getStr_of_missing d kVisualStyleAnalysis h
  · exact getList_of_missing d kRecommendations h

/-- Witness for C3 at the concrete mapping `{"strengths": 3}`: the
wrong-typed `strengths` defaults to `[]`, the missing `summary` to `""`,
the missing score to 5. -/
theorem C3_normalize_total_defaults_witness :
    (CompetitorAnalysis.ofData [(kStrengths, JVal.num 3)]).strengths = [] ∧
    (CompetitorAnalysis.ofData [(kStrengths, JVal.num 3)]).summary = [] ∧
    (ImageAnalysis.ofData [(kStrengths, JVal.num 3)]).visual_style_score = 5 :=
  ⟨(C3_normalize_total_defaults [(kStrengths, JVal.num 3)]).2.1 (JVal.num 3) rfl rfl,
   (C3_normalize_total_defaults [(kStrengths, JVal.num 3)]).2.2.2.2.2.1 rfl,
   (C3_normalize_total_defaults [(kStrengths, JVal.num 3)]).2.2.2.2.2.2.2.2.2.1 rfl⟩

/-- C4 counterexample: on the extracted mapping
`{"visual_style_score": 15}` the normalized score is 15 — neither clamped
into [0,10] nor defaulted to 5, contradicting the claimed invariant. -/
theorem C4_score_invariant_cex :
    (ImageAnalysis.ofData [(kVisualStyleScore, JVal.num 15)]).visual_style_score = 15 ∧
    ¬ (ImageAnalysis.ofData [(kVisualStyleScore, JVal.num 15)]).visual_style_score ≤ 10 ∧
    (ImageAnalysis.ofData [(kVisualStyleScore, JVal.num 15)]).visual_style_score ≠ 5 :=
  ⟨rfl, by decide, by decide⟩

/-- C4 amended: `visual_style_score` is defaulted to 5 when the field is
missing or not an integer; an out-of-range integer is passed through
unchanged (no clamping), so membership in [0,10] is not guaranteed. -/
theorem C4_score_default_amended (d : JDict) :
    (dictGet d kVisualStyleScore = none →
      (ImageAnalysis.ofData d).visual_style_score = 5) ∧
    (∀ v, dictGet d kVisualStyleScore = some v → (∀ n : Int, v ≠ JVal.num n) →
      (ImageAnalysis.ofData d).visual_style_score = 5) :=
  ⟨fun h => getScore_of_missing d kVisualStyleScore 5 h,
   fun v h hv => getScore_of_wrong_typed d kVisualStyleScore 5 v h hv⟩

/-- Witness for the amended C4 at the empty mapping and at
`{"visual_style_score": "high"}`. -/
theorem C4_score_default_amended_witness :
    (ImageAnalysis.ofData []).visual_style_score = 5 ∧
    (ImageAnalysis.ofData [(kVisualStyleScore, JVal.str ('h' :: []))]).visual_style_score = 5 :=
  ⟨(C4_score_default_amended []).1 rfl,
   (C4_score_default_amended [(kVisualStyleScore, JVal.str ('h' :: []))]).2
     (JVal.str ('h' :: [])) rfl (fun _ h => JVal.noConfusion h)⟩

/-- C5: an integer `visual_style_score` in the extracted mapping — in
range or not — is passed through to the result unchanged. -/
theorem C5_score_passthrough (d : JDict) (n : Int)
    (h : dictGet d kVisualStyleScore = some (JVal.num n)) :
    (ImageAnalysis.ofData d).visual_style_score = n := by
  simp [ImageAnalysis.ofData, getScore, h]

/-- Witness for C5 at the out-of-range mapping
`{"visual_style_score": 15}`. -/
theorem C5_score_passthrough_witness :
    (ImageAnalysis.ofData [(kVisualStyleScore, JVal.num 15)]).visual_style_score = 15 :=
  C5_score_passthrough [(kVisualStyleScore, JVal.num 15)] 15 rfl

/-- C1: the response extractor is total — `parse_json` is a total Lean
function of the input string — and whenever the final strict JSON parse of
the working text fails (malformed JSON, no braces found, empty fence), it
returns the empty mapping; when the parse succeeds it returns the parsed
value. -/
theorem C1_extract_total (raw : List Char) :
    (jsonLoads (workingText raw) = none → parse_json raw = JVal.obj []) ∧
    (∀ v, jsonLoads (workingText raw) = some v → parse_json raw = v) := by
  constructor
  · intro h
    simp only [parse_json, workingText] at *
    rw [h]
    rfl
  · intro v h
    simp only [parse_json, workingText] at *
    rw [h]
    rfl

/-- Witness for C1 at the brace-free, fence-free refusal text
`"Sorry, I cannot help with that."`: the strict parse fails and the
extractor returns the empty mapping. -/
theorem C1_extract_total_witness :
    jsonLoads (workingText (("Sorry, I cannot help with that.").data)) = none ∧
    parse_json (("Sorry, I cannot help with that.").data) = JVal.obj [] :=
  ⟨rfl, (C1_extract_total (("Sorry, I cannot help with that.").data)).1 rfl⟩

/-- C6 counterexample: the desktop `GeminiClient.analyze_text`
(gemini_client.py lines 58-59, cited by the claim) does not re-raise a
provider exception to its caller — it catches it and returns the
structured value `{"success": False, "error": str(e)}`. -/
theorem C6_reraise_cex :
    GeminiClient.analyze_text (('x' :: [])) (fun _ => Except.error (("boom").data)) =
      Except.ok (ClientResult.failure (("boom").data)) ∧
    GeminiClient.analyze_text (('x' :: [])) (fun _ => Except.error (("boom").data)) ≠
      Except.error (("boom").data) :=
  ⟨rfl, fun h => Except.noConfusion h⟩

/-- C6 amended: for every transport/provider exception, the backend
`GeminiService` analysis calls log it (with elapsed time) and re-raise it
unchanged to the caller without retrying — the endpoint is consulted once
and its error value is returned verbatim — while the desktop
`GeminiClient.analyze_text` instead converts it into a
`{"success": False, "error": message}` result. -/
theorem C6_reraise_amended (text e : List Char) :
    GeminiService.analyze_text text (fun _ => Except.error e) = Except.error e ∧
    GeminiService.analyze_image (fun _ => Except.error e) = Except.error e ∧
    GeminiClient.analyze_text text (fun _ => Except.error e) =
      Except.ok (ClientResult.failure e) :=
  ⟨rfl, rfl, rfl⟩

/-- C7 counterexample: with distinctly named text and vision models, two
cost calculations with equal token counts and opposite `has_image` flags
produce identical input, output and total costs — the hardcoded text-rate
pair is applied in both cases, there is no separate vision rate — and only
the reported model name differs. -/
theorem C7_cost_rate_cex :
    (GeminiService.calculate_cost
        { gemini_api_key := [], gemini_text_model := ('t' :: []),
          gemini_vision_model := ('v' :: []) } 100 50 true).input_cost_usd =
      (GeminiService.calculate_cost
        { gemini_api_key := [], gemini_text_model := ('t' :: []),
          gemini_vision_model := ('v' :: []) } 100 50 false).input_cost_usd ∧
    (GeminiService.calculate_cost
        { gemini_api_key := [], gemini_text_model := ('t' :: []),
          gemini_vision_model := ('v' :: []) } 100 50 true).output_cost_usd =
      (GeminiService.calculate_cost
        { gemini_api_key := [], gemini_text_model := ('t' :: []),
          gemini_vision_model := ('v' :: []) } 100 50 false).output_cost_usd ∧
    (GeminiService.calculate_cost
        { gemini_api_key := [], gemini_text_model := ('t' :: []),
          gemini_vision_model := ('v' :: []) } 100 50 true).total_cost_usd =
      (GeminiService.calculate_cost
        { gemini_api_key := [], gemini_text_model := ('t' :: []),
          gemini_vision_model := ('v' :: []) } 100 50 false).total_cost_usd ∧
    (GeminiService.calculate_cost
        { gemini_api_key := [], gemini_text_model := ('t' :: []),
          gemini_vision_model := ('v' :: []) } 100 50 true).input_cost_usd =
      pyRound6 (100 * INPUT_TEXT_COST) ∧
    (GeminiService.calculate_cost
        { gemini_api_key := [], gemini_text_model := ('t' :: []),
          gemini_vision_model := ('v' :: []) } 100 50 true).model ≠
      (GeminiService.calculate_cost
        { gemini_api_key := [], gemini_text_model := ('t' :: []),
          gemini_vision_model := ('v' :: []) } 100 50 false).model :=
  ⟨rfl, rfl, rfl, rfl, by decide⟩

/-- C7 amended: the `has_image` flag selects only the reported model
identifier (the configured vision versus text model name); the monetary
rates are the single hardcoded text-rate constant pair, applied identically
for both flags, so equal token counts always yield equal costs. -/
theorem C7_cost_rate_amended (s : Settings) (i o : Nat) :
    (∀ b : Bool, (GeminiService.calculate_cost s i o b).input_cost_usd =
      pyRound6 (i * INPUT_TEXT_COST)) ∧
    (∀ b : Bool, (GeminiService.calculate_cost s i o b).output_cost_usd =
      pyRound6 (o * OUTPUT_TEXT_COST)) ∧
    (∀ b : Bool, (GeminiService.calculate_cost s i o b).total_cost_usd =
      pyRound6 (i * INPUT_TEXT_COST + o * OUTPUT_TEXT_COST)) ∧
    (GeminiService.calculate_cost s i o true).model = s.gemini_vision_model ∧
    (GeminiService.calculate_cost s i o false).model = s.gemini_text_model :=
  ⟨fun _ => rfl, fun _ => rfl, fun _ => rfl, rfl, rfl⟩

/-- C8: `parse_url` never lets an exception escape (it is a total function
into result dicts); a page-load timeout and any other navigation/session
failure come back as structured failure values; and the rendering session
is released on every exit path — `quitCalled` holds exactly when a driver
was created, including every failure path. -/
theorem C8_fetch_failures_structured (url : List Char) (env : BrowserEnv) :
    ((WebParser.parse_url url env).quitCalled = env.createErr.isNone) ∧
    (env.createErr = none → env.navOutcome = NavOutcome.timeout →
      (WebParser.parse_url url env).result = ParseResult.fail timeoutMsg) ∧
    (∀ m, env.createErr = none → env.navOutcome = NavOutcome.err m →
      (WebParser.parse_url url env).result = ParseResult.fail m) ∧
    (env.createErr = none → env.navOutcome = NavOutcome.ok → env.bodyWaitOk = false →
      (WebParser.parse_url url env).result = ParseResult.fail timeoutMsg) ∧
    (∀ e, env.createErr = some e →
      (WebParser.parse_url url env).result = ParseResult.fail e) := by
  obtain ⟨ce, nav, bw, pt, h1t, se⟩ := env
  refine ⟨?_, ?_, ?_, ?_, ?_⟩
  · cases ce <;> cases nav <;> cases bw <;> cases se <;>
      simp [WebParser.parse_url]
  · intro hce hnav
    cases hce; cases hnav
    simp [WebParser.parse_url]
  · intro m hce hnav
    cases hce; cases hnav
    simp [WebParser.parse_url]
  · intro hce hnav hbw
    cases hce; cases hnav; cases hbw
    simp [WebParser.parse_url]
  · intro e hce
    cases hce
    simp [WebParser.parse_url]

/-- Witness for C8 at a concrete run whose page load times out: the
result is the structured timeout failure and the session was released. -/
theorem C8_fetch_failures_structured_witness :
    (WebParser.parse_url (("example.com").data)
        { createErr := none, navOutcome := NavOutcome.timeout, bodyWaitOk := true,
          pageTitle := [], h1Text := none, screenshotErr := none }).result =
      ParseResult.fail timeoutMsg ∧
    (WebParser.parse_url (("example.com").data)
        { createErr := none, navOutcome := NavOutcome.timeout, bodyWaitOk := true,
          pageTitle := [], h1Text := none, screenshotErr := none }).quitCalled = true :=
  ⟨(C8_fetch_failures_structured (("example.com").data)
      { createErr := none, navOutcome := NavOutcome.timeout, bodyWaitOk := true,
        pageTitle := [], h1Text := none, screenshotErr := none }).2.1 rfl rfl,
   (C8_fetch_failures_structured (("example.com").data)
      { createErr := none, navOutcome := NavOutcome.timeout, bodyWaitOk := true,
        pageTitle := [], h1Text := none, screenshotErr := none }).1⟩

/-- C9 counterexample: on a page that loads but has no `h1`, the run is a
success and the heading field is the Russian sentinel of the code
`"H1 не найден"`, which is not the spec literal `"H1 not found"` (and
the empty-title default is `"Без заголовка"`, not `"No title"`). -/
theorem C9_missing_h1_cex :
    (WebParser.parse_url (("example.com").data)
        { createErr := none, navOutcome := NavOutcome.ok, bodyWaitOk := true,
          pageTitle := ("Example Domain").data, h1Text := none,
          screenshotErr := none }).result =
      ParseResult.ok (("Example Domain").data) noH1Msg
        (screenshotName (("https://example.com").data)) (("https://example.com").data) ∧
    noH1Msg ≠ (("H1 not found").data) ∧
    noTitleMsg ≠ (("No title").data) :=
  ⟨rfl, by decide, by decide⟩

/-- C9 amended: a successful load with no `h1` element is a success result
(not a failure) whose heading is the sentinel `"H1 не найден"` and whose
title is the page title, defaulting to `"Без заголовка"` when the title is
empty — the spec strings `"H1 not found"` / `"No title"` are English glosses of
these Russian literals. -/
theorem C9_missing_h1_amended (url : List Char) (env : BrowserEnv)
    (hce : env.createErr = none) (hnav : env.navOutcome = NavOutcome.ok)
    (hbw : env.bodyWaitOk = true) (hh1 : env.h1Text = none)
    (hse : env.screenshotErr = none) :
    (WebParser.parse_url url env).result =
      ParseResult.ok (if env.pageTitle.isEmpty then noTitleMsg else env.pageTitle)
        noH1Msg (screenshotName (normalizeUrl url)) (normalizeUrl url) ∧
    (WebParser.parse_url url env).quitCalled = true := by
  obtain ⟨ce, nav, bw, pt, h1t, se⟩ := env
  cases hce; cases hnav; cases hbw; cases hh1; cases hse
  simp [WebParser.parse_url]

/-- Witness for the amended C9 at a concrete no-`h1`, empty-title run. -/
theorem C9_missing_h1_amended_witness :
    (WebParser.parse_url (("example.com").data)
        { createErr := none, navOutcome := NavOutcome.ok, bodyWaitOk := true,
          pageTitle := [], h1Text := none, screenshotErr := none }).result =
      ParseResult.ok noTitleMsg noH1Msg
        (screenshotName (normalizeUrl (("example.com").data)))
        (normalizeUrl (("example.com").data)) :=
  ((C9_missing_h1_amended (("example.com").data)
      { createErr := none, navOutcome := NavOutcome.ok, bodyWaitOk := true,
        pageTitle := [], h1Text := none, screenshotErr := none }
      rfl rfl rfl rfl rfl).1)

/-! Helper lemmas for `analyze_parsed_content`. -/

theorem joinParts_cons (c : Char) (l : List Char) (xs : List (List Char)) :
    ∃ w, joinParts ((c :: l) :: xs) = c :: w := by
  cases xs with
  | nil => exact ⟨l, rfl⟩
  | cons y ys => exact ⟨l ++ '\n' :: '\n' :: joinParts (y :: ys), rfl⟩

theorem pyStrip_cons_ne_nil {c : Char} (w : List Char) (hc : pyWS c = false) :
    pyStrip (c :: w) ≠ [] := by
  have h1 : (c :: w).dropWhile pyWS = c :: w := by
    rw [List.dropWhile_cons, hc]
    simp
  intro h
  simp only [pyStrip, dropTrailingWS, h1] at h
  rw [List.reverse_eq_nil_iff, List.dropWhile_eq_nil_iff] at h
  have h2 := h c (by simp)
  rw [hc] at h2
  exact Bool.noConfusion h2

theorem pyStrip_join_cons_ne_nil (c : Char) (l : List Char) (xs : List (List Char))
    (hc : pyWS c = false) : pyStrip (joinParts ((c :: l) :: xs)) ≠ [] := by
  obtain ⟨w, hw⟩ := joinParts_cons c l xs
  rw [hw]
  exact pyStrip_cons_ne_nil w hc

theorem pyStrip_labelTitle_ne_nil (s : List Char) (xs : List (List Char)) :
    pyStrip (joinParts ((labelTitle ++ s) :: xs)) ≠ [] := by
  have h1 : labelTitle ++ s = 'З' :: ((("аголовок страницы (title): ").data) ++ s) := rfl
  rw [h1]
  exact pyStrip_join_cons_ne_nil _ _ _ (by decide)

theorem pyStrip_labelH1_ne_nil (s : List Char) (xs : List (List Char)) :
    pyStrip (joinParts ((labelH1 ++ s) :: xs)) ≠ [] := by
  have h1 : labelH1 ++ s = 'Г' :: ((("лавный заголовок (H1): ").data) ++ s) := rfl
  rw [h1]
  exact pyStrip_join_cons_ne_nil _ _ _ (by decide)

theorem pyStrip_labelParagraph_ne_nil (s : List Char) (xs : List (List Char)) :
    pyStrip (joinParts ((labelParagraph ++ s) :: xs)) ≠ [] := by
  have h1 : labelParagraph ++ s = 'П' :: ((("ервый абзац: ").data) ++ s) := rfl
  rw [h1]
  exact pyStrip_join_cons_ne_nil _ _ _ (by decide)

theorem fieldPart_of_not_truthy (label : List Char) (field : Option (List Char))
    (h : truthyOpt field = false) : fieldPart label field = [] := by
  cases field with
  | none => rfl
  | some u =>
    have hu : u.isEmpty = true := by simpa [truthyOpt] using h
    simp [fieldPart, hu]

theorem fieldPart_of_truthy (label : List Char) (s : List Char)
    (h : truthyOpt (some s) = true) : fieldPart label (some s) = [label ++ s] := by
  have hs : s.isEmpty = false := by simpa [truthyOpt] using h
  simp [fieldPart, hs]

theorem parsed_content_not_blank (t h p : Option (List Char))
    (htr : (truthyOpt t || truthyOpt h || truthyOpt p) = true) :
    pyStrip (joinParts (contentParts t h p)) ≠ [] := by
  by_cases ht : truthyOpt t = true
  · obtain ⟨s, rfl⟩ : ∃ s, t = some s := by
      cases t with
      | none => simp [truthyOpt] at ht
      | some s => exact ⟨s, rfl⟩
    have hparts : contentParts (some s) h p =
        (labelTitle ++ s) :: (fieldPart labelH1 h ++ fieldPart labelParagraph p) := by
      rw [contentParts, fieldPart_of_truthy labelTitle s ht]
      simp
    rw [hparts]
    exact pyStrip_labelTitle_ne_nil _ _
  · have htf : truthyOpt t = false := by
      simpa using ht
    by_cases hh : truthyOpt h = true
    · obtain ⟨s, rfl⟩ : ∃ s, h = some s := by
        cases h with
        | none => simp [truthyOpt] at hh
        | some s => exact ⟨s, rfl⟩
      have hparts : contentParts t (some s) p =
          (labelH1 ++ s) :: fieldPart labelParagraph p := by
        rw [contentParts, fieldPart_of_truthy labelH1 s hh, fieldPart_of_not_truthy _ t htf]
        simp
      rw [hparts]
      exact pyStrip_labelH1_ne_nil _ _
    · have hhf : truthyOpt h = false := by
        simpa using hh
      have hp : truthyOpt p = true := by
        rw [htf, hhf] at htr
        simpa using htr
      obtain ⟨s, rfl⟩ : ∃ s, p = some s := by
        cases p with
        | none => simp [truthyOpt] at hp
        | some s => exact ⟨s, rfl⟩
      have hparts : contentParts t h (some s) = [labelParagraph ++ s] := by
        rw [contentParts, fieldPart_of_truthy labelParagraph s hp,
          fieldPart_of_not_truthy _ t htf, fieldPart_of_not_truthy _ h hhf]
        simp
      rw [hparts]
      exact pyStrip_labelParagraph_ne_nil _ []

/-- C10 counterexample: with a whitespace-only title and absent `h1` and
paragraph, `analyze_parsed_content` does invoke the model (the labelled
title keeps the combined text non-blank) and — against an erroring
endpoint — its result is the propagated error, not the fixed default
analysis; the claim predicted the default result with no model call. -/
theorem C10_blank_content_cex :
    GeminiService.analyze_parsed_content (some (' ' :: [])) none none
        (fun _ => Except.error ('E' :: [])) = (Except.error ('E' :: []), true) ∧
    GeminiService.analyze_parsed_content (some (' ' :: [])) none none
        (fun _ => Except.error ('E' :: [])) ≠ (Except.ok emptyContentAnalysis, false) :=
  ⟨rfl, fun heq => absurd (congrArg Prod.snd heq) (by decide)⟩

/-- C10 amended: when title, `h1` and paragraph are all absent or empty
strings, `analyze_parsed_content` returns the fixed default
`CompetitorAnalysis` (all lists empty, non-empty summary
`"Не удалось извлечь контент для анализа"`) without invoking the model;
whenever at least one field is a non-empty string — a whitespace-only
field counts, its label making the combined text non-blank — it delegates
to `analyze_text` on the labelled present fields joined by blank lines. -/
theorem C10_parsed_content_amended (t h p : Option (List Char)) (call : Endpoint) :
    (truthyOpt t = false → truthyOpt h = false → truthyOpt p = false →
      GeminiService.analyze_parsed_content t h p call =
        (Except.ok emptyContentAnalysis, false)) ∧
    ((truthyOpt t || truthyOpt h || truthyOpt p) = true →
      GeminiService.analyze_parsed_content t h p call =
        (GeminiService.analyze_text (joinParts (contentParts t h p)) call, true)) := by
  constructor
  · intro ht hh hp
    have hparts : contentParts t h p = [] := by
      rw [contentParts, fieldPart_of_not_truthy _ t ht, fieldPart_of_not_truthy _ h hh,
        fieldPart_of_not_truthy _ p hp]
      rfl
    simp [GeminiService.analyze_parsed_content, hparts, joinParts, pyStrip, dropTrailingWS]
  · intro htr
    have hne := parsed_content_not_blank t h p htr
    simp only [GeminiService.analyze_parsed_content]
    rw [if_neg hne]

/-- Witness for the amended C10: a present title delegates to
`analyze_text` on the labelled joined text, and an all-absent call returns
the default without consulting the endpoint. -/
theorem C10_parsed_content_amended_witness :
    GeminiService.analyze_parsed_content (some (("Acme").data)) none none
        (fun _ => Except.error ('E' :: [])) =
      (GeminiService.analyze_text (joinParts (contentParts (some (("Acme").data)) none none))
        (fun _ => Except.error ('E' :: [])), true) ∧
    GeminiService.analyze_parsed_content none none (some [])
        (fun _ => Except.error ('E' :: [])) =
      (Except.ok emptyContentAnalysis, false) :=
  ⟨(C10_parsed_content_amended (some (("Acme").data)) none none
      (fun _ => Except.error ('E' :: []))).2 rfl,
   (C10_parsed_content_amended none none (some [])
      (fun _ => Except.error ('E' :: []))).1 rfl rfl rfl⟩

/-! Lemmas about `isPre`, `findPat` and the fence extraction, leading to
the corrected C2. -/

theorem isPre_cons (a b : Char) (as bs : List Char) :
    isPre (a :: as) (b :: bs) = if a = b then isPre as bs else false := rfl

theorem drop_len_add (a b : List Char) (n : Nat) :
    (a ++ b).drop (a.length + n) = b.drop n := by
  induction a with
  | nil => simp
  | cons c a' ih =>
    simp only [List.cons_append, List.length_cons]
    rw [show a'.length + 1 + n = (a'.length + n) + 1 by omega, List.drop_succ_cons, ih]

theorem take_len_add (a b : List Char) (n : Nat) :
    (a ++ b).take (a.length + n) = a ++ b.take n := by
  induction a with
  | nil => simp
  | cons c a' ih =>
    simp only [List.cons_append, List.length_cons]
    rw [show a'.length + 1 + n = (a'.length + n) + 1 by omega, List.take_succ_cons, ih]

theorem bbb_not_pre_of_findPat_none {l : List Char} (h : findPat bbb l = none) :
    ∀ j, isPre bbb (l.drop j) = false := by
  induction l with
  | nil =>
    intro j
    rw [List.drop_nil]
    rfl
  | cons c rest ih =>
    intro j
    by_cases hp : isPre bbb (c :: rest) = true
    · rw [findPat, if_pos hp] at h
      exact Option.noConfusion h
    · have hrest : findPat bbb rest = none := by
        rw [findPat, if_neg hp] at h
        exact Option.map_eq_none'.mp h
      cases j with
      | zero =>
        rw [List.drop_zero]
        simpa using hp
      | succ j =>
        rw [List.drop_succ_cons]
        exact ih hrest j

theorem isPre_bbb_bbb (post : List Char) :
    isPre bbb ('\x60' :: '\x60' :: '\x60' :: post) = true := by
  simp only [bbb]
  rw [isPre_cons, if_pos rfl, isPre_cons, if_pos rfl, isPre_cons, if_pos rfl]
  rfl

theorem isPre_bbb_last_brace (S tail : List Char) (h3 : isPre bbb S = false)
    (hlast : S.getLast? = some '}') : isPre bbb (S ++ tail) = false := by
  rcases S with _ | ⟨a, _ | ⟨b, _ | ⟨c, S₃⟩⟩⟩
  · simp at hlast
  · have ha : a = '}' := by simpa using hlast
    simp only [List.cons_append, List.nil_append, bbb]
    rw [isPre_cons, if_neg (by rw [ha]; decide)]
  · have hb : b = '}' := by
      rw [List.getLast?_cons_cons] at hlast
      simpa using hlast
    simp only [List.cons_append, List.nil_append, bbb]
    by_cases ha : ('\x60' : Char) = a
    · rw [isPre_cons, if_pos ha, isPre_cons, if_neg (by rw [hb]; decide)]
    · rw [isPre_cons, if_neg ha]
  · simp only [List.cons_append, bbb]
    by_cases ha : ('\x60' : Char) = a
    · by_cases hb : ('\x60' : Char) = b
      · by_cases hc : ('\x60' : Char) = c
        · exfalso
          simp only [bbb] at h3
          rw [isPre_cons, if_pos ha, isPre_cons, if_pos hb, isPre_cons, if_pos hc] at h3
          exact absurd h3 (by simp [isPre])
        · rw [isPre_cons, if_pos ha, isPre_cons, if_pos hb, isPre_cons, if_neg hc]
      · rw [isPre_cons, if_pos ha, isPre_cons, if_neg hb]
    · rw [isPre_cons, if_neg ha]

theorem findPat_ws_then_bbb (w post : List Char) (hw : ∀ c ∈ w, pyWS c = true) :
    findPat bbb (w ++ (bbb ++ post)) = some w.length := by
  induction w with
  | nil =>
    rw [List.nil_append, show bbb ++ post = '\x60' :: '\x60' :: '\x60' :: post from rfl,
      findPat, if_pos (isPre_bbb_bbb post)]
    rfl
  | cons c w' ih =>
    have hc : pyWS c = true := hw c (by simp)
    have hne : ¬ (('\x60' : Char) = c) := by
      intro e
      rw [← e] at hc
      exact absurd hc (by decide)
    have hfalse : isPre bbb (c :: (w' ++ (bbb ++ post))) = false := by
      rw [show bbb = '\x60' :: '\x60' :: '\x60' :: [] from rfl, isPre_cons, if_neg hne]
    rw [List.cons_append, findPat, if_neg (by rw [hfalse]; exact Bool.noConfusion),
      ih (fun x hx => hw x (by simp [hx]))]
    rfl

theorem findPat_closer_gen :
    ∀ S : List Char, (∀ j, isPre bbb (S.drop j) = false) → S.getLast? = some '}' →
      ∀ w post : List Char, (∀ c ∈ w, pyWS c = true) →
        findPat bbb (S ++ (w ++ (bbb ++ post))) = some (S.length + w.length) := by
  intro S
  induction S with
  | nil =>
    intro _ hlast
    simp at hlast
  | cons c S' ih =>
    intro hS hlast w post hw
    cases S' with
    | nil =>
      have hc : c = '}' := by simpa using hlast
      have hfalse : isPre bbb (c :: (w ++ (bbb ++ post))) = false := by
        rw [show bbb = '\x60' :: '\x60' :: '\x60' :: [] from rfl, isPre_cons,
          if_neg (by rw [hc]; decide)]
      rw [List.cons_append, List.nil_append, findPat,
        if_neg (by rw [hfalse]; exact Bool.noConfusion), findPat_ws_then_bbb w post hw]
      simp only [Option.map_some', List.length_cons, List.length_nil, Option.some.injEq]
      omega
    | cons d t =>
      have hlast' : (d :: t).getLast? = some '}' := by
        rwa [List.getLast?_cons_cons] at hlast
      have h0 : isPre bbb (c :: d :: t) = false := by
        simpa using hS 0
      have hS' : ∀ j, isPre bbb ((d :: t).drop j) = false := by
        intro j
        have := hS (j + 1)
        rwa [List.drop_succ_cons] at this
      have hsh : isPre bbb ((c :: d :: t) ++ (w ++ (bbb ++ post))) = false :=
        isPre_bbb_last_brace (c :: d :: t) (w ++ (bbb ++ post)) h0 hlast
      rw [List.cons_append] at hsh
      rw [List.cons_append, findPat, if_neg (by rw [hsh]; exact Bool.noConfusion),
        ih hS' hlast' w post hw]
      simp only [Option.map_some', List.length_cons, Option.some.injEq]
      omega

theorem dropWhile_ws_append (w l : List Char) (hw : ∀ c ∈ w, pyWS c = true) :
    (w ++ l).dropWhile pyWS = l.dropWhile pyWS := by
  induction w with
  | nil => rfl
  | cons c w' ih =>
    rw [List.cons_append, List.dropWhile_cons, if_pos (hw c (by simp))]
    exact ih (fun x hx => hw x (by simp [hx]))

theorem dropTrailing_append_ws (S w : List Char) (hw : ∀ c ∈ w, pyWS c = true)
    (hlast : S.getLast? = some '}') : dropTrailingWS (S ++ w) = S := by
  have h1 : (S ++ w).reverse = w.reverse ++ S.reverse := List.reverse_append S w
  have hwr : ∀ c ∈ w.reverse, pyWS c = true := fun c hc => hw c (List.mem_reverse.mp hc)
  have h3 : S.reverse.head? = some '}' := by
    rw [List.head?_reverse]
    exact hlast
  cases hrev : S.reverse with
  | nil => rw [hrev] at h3; exact Option.noConfusion h3
  | cons x xs =>
    have hx : x = '}' := by
      rw [hrev] at h3
      simpa using h3
    have h4 : (x :: xs).dropWhile pyWS = x :: xs := by
      rw [List.dropWhile_cons, if_neg (by rw [hx]; decide)]
    simp only [dropTrailingWS]
    rw [h1, dropWhile_ws_append w.reverse S.reverse hwr, hrev, h4, ← hrev,
      List.reverse_reverse]

theorem isPre_jsonTag_ws (w rest : List Char) (hw : ∀ c ∈ w, pyWS c = true) :
    isPre jsonTag (w ++ '{' :: rest) = false := by
  cases w with
  | nil =>
    simp only [List.nil_append, jsonTag]
    rw [isPre_cons, if_neg (by decide)]
  | cons c w' =>
    have hc : pyWS c = true := hw c (by simp)
    have hne : ¬ (('j' : Char) = c) := by
      intro e
      rw [← e] at hc
      exact absurd hc (by decide)
    simp only [List.cons_append, jsonTag]
    rw [isPre_cons, if_neg hne]

theorem lastIdx_getLast :
    ∀ l : List Char, l.getLast? = some '}' →
      lastIdx (fun c => c = '}') l = some (l.length - 1) := by
  intro l
  induction l with
  | nil => intro h; exact Option.noConfusion h
  | cons c rest ih =>
    intro h
    cases rest with
    | nil =>
      have hc : c = '}' := by simpa using h
      simp [lastIdx, hc]
    | cons d t =>
      have h' : (d :: t).getLast? = some '}' := by
        rwa [List.getLast?_cons_cons] at h
      have hrec := ih h'
      rw [lastIdx, hrec]
      simp only [List.length_cons]
      congr 1

theorem braceSpan_self (S₂ : List Char) (hlast : S₂.getLast? = some '}') :
    braceSpan ('{' :: S₂) = some ('{' :: S₂) := by
  have hne : S₂ ≠ [] := by
    intro e
    rw [e] at hlast
    exact Option.noConfusion hlast
  have hfind : findPat ('{' :: []) ('{' :: S₂) = some 0 := by
    rw [findPat, if_pos (by rw [isPre_cons, if_pos rfl]; rfl)]
  have hidx : lastIdx (fun c => c = '}') (('{' :: S₂).drop 1) = some (S₂.length - 1) := by
    rw [show ('{' :: S₂).drop 1 = S₂ from rfl]
    exact lastIdx_getLast S₂ hlast
  have hlen : 1 ≤ S₂.length := List.length_pos.mpr hne
  have hlen2 : S₂.length - 1 + 2 = ('{' :: S₂).length := by
    rw [List.length_cons]
    omega
  simp only [braceSpan, hfind, List.drop_zero, hidx]
  rw [hlen2, List.take_length]

theorem fenceInterior_fenced (pre tag w1 S w2 post : List Char)
    (htag : tag = [] ∨ tag = jsonTag)
    (hw1 : ∀ c ∈ w1, pyWS c = true) (hw2 : ∀ c ∈ w2, pyWS c = true)
    (hpre : findPat bbb (pre ++ bbb ++ tag ++ w1 ++ S ++ w2 ++ bbb ++ post) =
      some pre.length)
    (hS : findPat bbb S = none) (hhead : S.head? = some '{')
    (hlast : S.getLast? = some '}') :
    fenceInterior (pre ++ bbb ++ tag ++ w1 ++ S ++ w2 ++ bbb ++ post) = some S := by
  obtain ⟨S₂, rfl⟩ : ∃ S₂, S = '{' :: S₂ := by
    cases S with
    | nil => exact Option.noConfusion hhead
    | cons a t =>
      have ha : a = '{' := by simpa using hhead
      exact ⟨t, by rw [ha]⟩
  have hclose : findPat bbb ('{' :: (S₂ ++ (w2 ++ (bbb ++ post)))) =
      some (('{' :: S₂).length + w2.length) := by
    have h := findPat_closer_gen ('{' :: S₂) (bbb_not_pre_of_findPat_none hS) hlast
      w2 post hw2
    simp only [List.cons_append] at h
    exact h
  have htake2 : (w2 ++ (bbb ++ post)).take w2.length = w2 := by
    have h0 := take_len_add w2 (bbb ++ post) 0
    simp only [Nat.add_zero, List.take_zero, List.append_nil] at h0
    exact h0
  have htake : ('{' :: (S₂ ++ (w2 ++ (bbb ++ post)))).take (('{' :: S₂).length + w2.length) =
      '{' :: (S₂ ++ w2) := by
    have h := take_len_add ('{' :: S₂) (w2 ++ (bbb ++ post)) w2.length
    rw [htake2] at h
    simp only [List.cons_append] at h
    exact h
  have hdt : dropTrailingWS ('{' :: (S₂ ++ w2)) = '{' :: S₂ := by
    have h := dropTrailing_append_ws ('{' :: S₂) w2 hw2 hlast
    simp only [List.cons_append] at h
    exact h
  have hdw : (w1 ++ '{' :: (S₂ ++ (w2 ++ (bbb ++ post)))).dropWhile pyWS =
      '{' :: (S₂ ++ (w2 ++ (bbb ++ post))) := by
    rw [dropWhile_ws_append w1 _ hw1, List.dropWhile_cons, if_neg (by decide)]
  cases htag with
  | inl ht =>
    subst ht
    have hshape : pre ++ bbb ++ ([] : List Char) ++ w1 ++ ('{' :: S₂) ++ w2 ++ bbb ++ post =
        pre ++ ('\x60' :: '\x60' :: '\x60' ::
          (w1 ++ '{' :: (S₂ ++ (w2 ++ (bbb ++ post))))) := by
      simp [bbb, List.append_assoc]
    have hdropr : (pre ++ bbb ++ ([] : List Char) ++ w1 ++ ('{' :: S₂) ++ w2 ++ bbb ++
        post).drop (pre.length + 3) = w1 ++ '{' :: (S₂ ++ (w2 ++ (bbb ++ post))) := by
      rw [hshape, drop_len_add]
      rfl
    have hjf : isPre jsonTag (w1 ++ '{' :: (S₂ ++ (w2 ++ (bbb ++ post)))) = false :=
      isPre_jsonTag_ws w1 (S₂ ++ (w2 ++ (bbb ++ post))) hw1
    have hr1 : (if isPre jsonTag (w1 ++ '{' :: (S₂ ++ (w2 ++ (bbb ++ post)))) then
          (w1 ++ '{' :: (S₂ ++ (w2 ++ (bbb ++ post)))).drop 4
        else w1 ++ '{' :: (S₂ ++ (w2 ++ (bbb ++ post)))) =
        w1 ++ '{' :: (S₂ ++ (w2 ++ (bbb ++ post))) := by
      rw [hjf]
      rfl
    simp only [fenceInterior, hpre, hdropr, hr1, hdw, hclose, htake, hdt]
  | inr ht =>
    subst ht
    have hshape : pre ++ bbb ++ jsonTag ++ w1 ++ ('{' :: S₂) ++ w2 ++ bbb ++ post =
        pre ++ ('\x60' :: '\x60' :: '\x60' :: 'j' :: 's' :: 'o' :: 'n' ::
          (w1 ++ '{' :: (S₂ ++ (w2 ++ (bbb ++ post))))) := by
      simp [bbb, jsonTag, List.append_assoc]
    have hdropr : (pre ++ bbb ++ jsonTag ++ w1 ++ ('{' :: S₂) ++ w2 ++ bbb ++
        post).drop (pre.length + 3) =
        'j' :: 's' :: 'o' :: 'n' :: (w1 ++ '{' :: (S₂ ++ (w2 ++ (bbb ++ post)))) := by
      rw [hshape, drop_len_add]
      rfl
    have hjt : isPre jsonTag
        ('j' :: 's' :: 'o' :: 'n' :: (w1 ++ '{' :: (S₂ ++ (w2 ++ (bbb ++ post))))) =
        true := by
      simp only [jsonTag]
      rw [isPre_cons, if_pos rfl, isPre_cons, if_pos rfl, isPre_cons, if_pos rfl,
        isPre_cons, if_pos rfl]
      rfl
    have hr1 : (if isPre jsonTag
          ('j' :: 's' :: 'o' :: 'n' :: (w1 ++ '{' :: (S₂ ++ (w2 ++ (bbb ++ post))))) then
          ('j' :: 's' :: 'o' :: 'n' :: (w1 ++ '{' :: (S₂ ++ (w2 ++ (bbb ++ post))))).drop 4
        else 'j' :: 's' :: 'o' :: 'n' :: (w1 ++ '{' :: (S₂ ++ (w2 ++ (bbb ++ post))))) =
        w1 ++ '{' :: (S₂ ++ (w2 ++ (bbb ++ post))) := by
      rw [hjt]
      rfl
    simp only [fenceInterior, hpre, hdropr, hr1, hdw, hclose, htake, hdt]

/-- C2 counterexample: the well-formed object `{"a": 1}` sits in a
`json`-tagged markdown fence, but the preceding prose `"\x60\x60\x60 "`
contains a triple-backtick, so the leftmost fence-regex match pairs that
earlier delimiter with the real opener, the working text collapses, and the
extractor returns the empty mapping instead of the object. -/
theorem C2_fence_recovery_cex :
    jsonLoads (("\x7b\"a\": 1\x7d").data) = some (JVal.obj [('a' :: [], JVal.num 1)]) ∧
    parse_json ((("\x60\x60\x60 ").data) ++ fenceOpen ++ (("\x7b\"a\": 1\x7d").data) ++
      fenceClose ++ []) = JVal.obj [] ∧
    JVal.obj [('a' :: [], JVal.num 1)] ≠ JVal.obj [] :=
  ⟨rfl, rfl, by simp⟩

/-- C2 amended: for every well-formed JSON object embedded in a markdown
code fence — optionally tagged `json`, with any whitespace runs `w1`, `w2`
(possibly empty) separating the delimiters from the object — the extractor
recovers exactly that object regardless of the surrounding prose, provided
the leftmost triple-backtick of the whole text is the fence opener (no
stray triple-backtick in the preceding prose) and the object text contains
no triple-backtick.  `S` is the object text, from its opening brace to its
closing brace; `kvs` is the parsed object. -/
theorem C2_fence_recovery_amended (pre tag w1 S w2 post : List Char)
    (kvs : List (List Char × JVal))
    (htag : tag = [] ∨ tag = jsonTag)
    (hw1 : ∀ c ∈ w1, pyWS c = true) (hw2 : ∀ c ∈ w2, pyWS c = true)
    (hparse : jsonLoads S = some (JVal.obj kvs))
    (hhead : S.head? = some '{') (hlast : S.getLast? = some '}')
    (hpre : findPat bbb (pre ++ bbb ++ tag ++ w1 ++ S ++ w2 ++ bbb ++ post) =
      some pre.length)
    (hS : findPat bbb S = none) :
    parse_json (pre ++ bbb ++ tag ++ w1 ++ S ++ w2 ++ bbb ++ post) = JVal.obj kvs := by
  have hf := fenceInterior_fenced pre tag w1 S w2 post htag hw1 hw2 hpre hS hhead hlast
  have hb : braceSpan S = some S := by
    obtain ⟨S₂, rfl⟩ : ∃ S₂, S = '{' :: S₂ := by
      cases S with
      | nil => exact Option.noConfusion hhead
      | cons a t =>
        have ha : a = '{' := by simpa using hhead
        exact ⟨t, by rw [ha]⟩
    apply braceSpan_self
    cases S₂ with
    | nil => simp at hlast
    | cons d t => rwa [List.getLast?_cons_cons] at hlast
  simp only [parse_json, hf, Option.getD_some, hb, hparse]

/-- Witness for the amended C2 at two concrete inputs exercising both fence
shapes: a `json`-tagged fence with newline separators around `{"a": 1}`,
and an untagged fence with a single-space opening separator and no closing
separator around `{"b": 2}`, each with prose on both sides. -/
theorem C2_fence_recovery_amended_witness :
    parse_json ((("Result:\n").data) ++ bbb ++ jsonTag ++ ('\n' :: []) ++
        (("\x7b\"a\": 1\x7d").data) ++ ('\n' :: []) ++ bbb ++ ((" Done.").data)) =
      JVal.obj [('a' :: [], JVal.num 1)] ∧
    parse_json ((("See: ").data) ++ bbb ++ ([] : List Char) ++ (' ' :: []) ++
        (("\x7b\"b\": 2\x7d").data) ++ ([] : List Char) ++ bbb ++ ((" end").data)) =
      JVal.obj [('b' :: [], JVal.num 2)] :=
  ⟨C2_fence_recovery_amended (("Result:\n").data) jsonTag ('\n' :: [])
      (("\x7b\"a\": 1\x7d").data) ('\n' :: []) ((" Done.").data)
      [('a' :: [], JVal.num 1)] (Or.inr rfl) (by decide) (by decide) rfl rfl rfl rfl rfl,
   C2_fence_recovery_amended (("See: ").data) ([] : List Char) (' ' :: [])
      (("\x7b\"b\": 2\x7d").data) ([] : List Char) ((" end").data)
      [('b' :: [], JVal.num 2)] (Or.inl rfl) (by decide) (by decide) rfl rfl rfl rfl rfl⟩
